import Mathlib

/-!
Verification of the link-shortening and visit-analytics service.

Shallow embedding conventions:
* SQLite rows become Lean structures; the two tables become `List` values
  threaded explicitly through the store operations.
* JavaScript numbers used for coordinates, percentages and averages are
  modelled as `ℚ`; `Math.round` / `Math.ceil` become `jsRound` / `jsCeil`
  (`Math.round x = ⌊x + 1/2⌋`, half towards `+∞`, for all JS inputs).
* Timestamps are milliseconds since the Unix epoch (`Int`), as returned by
  `Date.getTime()` / `Date.now()`.  `toISOString().split('T')[0]` keys two
  timestamps to the same UTC date exactly when their floor-divisions by
  86400000 agree, so calendar days are modelled as that quotient.
  `getHours()` / `getDay()` are local-time: they are modelled for a
  fixed-offset zone by an offset parameter `tz` in minutes.
* A JavaScript `Map` iterates its entries in key-insertion order; it is
  modelled as an association list in which a `set` on a present key updates
  in place and a `set` on an absent key appends.
* `fetch` calls to the two geolocation providers are modelled by oracle
  arguments (`Option` replies; `none` = transport error / non-OK status);
  each operation additionally reports how many external calls it performed.
-/

namespace LinkTracker

/-- JavaScript `Math.round`: rounds half towards positive infinity. -/
def jsRound (q : ℚ) : ℤ := ⌊q + 1 / 2⌋

/-- JavaScript `Math.ceil`. -/
def jsCeil (q : ℚ) : ℤ := ⌈q⌉

/-- The percentage pattern `total > 0 ? Math.round((n / total) * 100 * 100) / 100 : 0`
used throughout `analytics.ts`. -/
def pct (n total : Nat) : ℚ :=
  if 0 < total then (jsRound ((n : ℚ) / (total : ℚ) * 100 * 100) : ℚ) / 100 else 0

/-- JavaScript `o || d` on an optional string (`undefined`/`null` and `""` are falsy). -/
def jsOr (o : Option String) (d : String) : String :=
  match o with
  | some s => if s = "" then d else s
  | none => d

/-! ### Data model (`src/lib/types.ts`, `database.sql`) -/

/-- A row of the `links` table. -/
structure TrackingLink where
  id : Nat
  short_code : String
  original_url : String
  title : Option String
  description : Option String
  created_at : Int
  updated_at : Int
  clicks : Nat
  active : Bool
deriving Repr, DecidableEq

/-- A row of the `clicks` table. -/
structure ClickEvent where
  id : Nat
  link_id : Nat
  ip_address : String
  user_agent : Option String
  referer : Option String
  country : Option String
  country_code : Option String
  region : Option String
  city : Option String
  latitude : Option ℚ
  longitude : Option ℚ
  timezone : Option String
  isp : Option String
  timestamp : Int
deriving Repr, DecidableEq

/-- The `GeolocationData` shape produced by the resolver. -/
structure GeolocationData where
  country : Option String
  countryCode : Option String
  region : Option String
  city : Option String
  lat : Option ℚ
  lon : Option ℚ
  timezone : Option String
  isp : Option String
  org : Option String
  query : Option String
  status : String
deriving Repr, DecidableEq

/-! ### Geolocation resolver (`src/lib/geolocation.ts`) -/

/-- Leading-digits fragment of JavaScript `parseInt`, adequate for the
dotted-quad components `isPrivateIP` feeds it (`none` models `NaN`). -/
def parseIntJS (s : String) : Option Nat :=
  let ds := s.toList.takeWhile Char.isDigit
  if ds.isEmpty then none
  else some (ds.foldl (fun n c => n * 10 + (c.toNat - 48)) 0)

/-- `String.prototype.split` with a single-character separator. -/
def charsSplitOn (sep : Char) : List Char → List (List Char)
  | [] => [[]]
  | c :: rest =>
    let r := charsSplitOn sep rest
    if c = sep then [] :: r
    else
      match r with
      | [] => [[c]]
      | h :: t => (c :: h) :: t

/-- `ip.split('.')`, as a list of strings. -/
def splitOnDot (ip : String) : List String :=
  (charsSplitOn (Char.ofNat 46) ip.toList).map (fun cs => String.mk cs)

/-- `ip.replace(/^::ffff:/, '')`. -/
def stripV6Prefix (ip : String) : String :=
  if ("::ffff:".toList).isPrefixOf ip.toList then String.mk (ip.toList.drop 7) else ip

/-- `isPrivateIP` from `geolocation.ts`: loopback, `localhost`, and the
private/link-local IPv4 ranges. -/
def isPrivateIP (ip : String) : Bool :=
  let cleanIP := stripV6Prefix ip
  if cleanIP = "127.0.0.1" ∨ cleanIP = "::1" ∨ cleanIP = "localhost" then true
  else
    let parts := splitOnDot cleanIP
    if parts.length = 4 then
      match parseIntJS (parts.getD 0 ""), parseIntJS (parts.getD 1 "") with
      | some f, some s =>
        decide (f = 10 ∨ (f = 172 ∧ 16 ≤ s ∧ s ≤ 31) ∨ (f = 192 ∧ s = 168) ∨
          (f = 169 ∧ s = 254))
      | some f, none => decide (f = 10)
      | none, _ => false
    else false

/-- The `private_ip` sentinel returned by `getLocationFromIP` for private addresses. -/
def privateIPLocation : GeolocationData :=
  { country := some "Unknown", countryCode := some "XX", region := some "Unknown",
    city := some "Unknown", lat := some 0, lon := some 0, timezone := some "Unknown",
    isp := some "Unknown", org := none, query := none, status := "private_ip" }

/-- `getFallbackLocation`: the `unknown` sentinel. -/
def getFallbackLocation : GeolocationData :=
  { country := some "Unknown", countryCode := some "XX", region := some "Unknown",
    city := some "Unknown", lat := some 0, lon := some 0, timezone := some "Unknown",
    isp := some "Unknown", org := none, query := none, status := "unknown" }

/-- Reply shape of the primary provider (ip-api.com). -/
structure PrimaryReply where
  status : String
  country : Option String
  countryCode : Option String
  regionName : Option String
  city : Option String
  lat : Option ℚ
  lon : Option ℚ
  timezone : Option String
  isp : Option String
  org : Option String
  query : Option String
deriving Repr, DecidableEq

/-- Reply shape of the secondary provider (ipapi.co). -/
structure FallbackReply where
  error : Bool
  country_name : Option String
  country_code : Option String
  region : Option String
  city : Option String
  latitude : Option ℚ
  longitude : Option ℚ
  timezone : Option String
  org : Option String
deriving Repr, DecidableEq

/-- `getLocationFromIP`; the second component counts external provider calls.
`reply = none` models a transport error or a non-OK HTTP status (every error
path is absorbed into the `unknown` sentinel by the `catch`). -/
def getLocationFromIP (ip : String) (reply : Option PrimaryReply) : GeolocationData × Nat :=
  if isPrivateIP ip then (privateIPLocation, 0)
  else
    match reply with
    | none => (getFallbackLocation, 1)
    | some d =>
      if d.status = "fail" then (getFallbackLocation, 1)
      else ({ country := d.country, countryCode := d.countryCode, region := d.regionName,
              city := d.city, lat := d.lat, lon := d.lon, timezone := d.timezone,
              isp := d.isp, org := d.org, query := d.query, status := d.status }, 1)

/-- `getLocationFromIPFallback`; same conventions as `getLocationFromIP`. -/
def getLocationFromIPFallback (ip : String) (reply : Option FallbackReply) :
    GeolocationData × Nat :=
  if isPrivateIP ip then (getFallbackLocation, 0)
  else
    match reply with
    | none => (getFallbackLocation, 1)
    | some d =>
      if d.error then (getFallbackLocation, 1)
      else ({ country := d.country_name, countryCode := d.country_code, region := d.region,
              city := d.city, lat := d.latitude, lon := d.longitude, timezone := d.timezone,
              isp := d.org, org := none, query := none, status := "success" }, 1)

/-- `GeolocationRateLimit.maxCalls`. -/
def maxCalls : Nat := 900

/-- Mutable fields of the `GeolocationRateLimit` singleton. -/
structure RateLimitState where
  calls : Nat
  resetTime : Int
deriving Repr, DecidableEq

/-- `GeolocationRateLimit.canMakeCall`, returning the answer and the
(possibly reset) counter state; `now` is `Date.now()`. -/
def canMakeCall (s : RateLimitState) (now : Int) : Bool × RateLimitState :=
  let s2 := if s.resetTime < now then { calls := 0, resetTime := now + 60 * 60 * 1000 } else s
  (decide (s2.calls < maxCalls), s2)

/-- `getLocationWithFallback`: rate-limit guard, then primary provider, then
secondary provider.  Returns the result, the final counter state, and the
number of external provider calls performed. -/
def getLocationWithFallback (s : RateLimitState) (now : Int) (ip : String)
    (primary : Option PrimaryReply) (fallback : Option FallbackReply) :
    GeolocationData × RateLimitState × Nat :=
  let g := canMakeCall s now
  if !g.1 then (getFallbackLocation, g.2, 0)
  else
    let s2 : RateLimitState := { g.2 with calls := g.2.calls + 1 }
    let r1 := getLocationFromIP ip primary
    if r1.1.status = "unknown" then
      let r2 := getLocationFromIPFallback ip fallback
      (r2.1, s2, r1.2 + r2.2)
    else (r1.1, s2, r1.2)

/-- `isValidCoordinates` from `geolocation.ts`. -/
def isValidCoordinates (lat lon : Option ℚ) : Bool :=
  match lat, lon with
  | some a, some b =>
    decide (-90 ≤ a ∧ a ≤ 90 ∧ -180 ≤ b ∧ b ≤ 180 ∧ a ≠ 0 ∧ b ≠ 0)
  | _, _ => false

/-! ### Link store operations (`src/lib/database` section of `types.ts`) -/

/-- `getLinkByCode`: `SELECT * FROM links WHERE short_code = ? AND active = 1`
(the table's UNIQUE constraint makes the first match the only match). -/
def getLinkByCode (store : List TrackingLink) (code : String) : Option TrackingLink :=
  store.find? (fun l => decide (l.short_code = code) && l.active)

/-- `getLinkById`. -/
def getLinkById (store : List TrackingLink) (id : Nat) : Option TrackingLink :=
  store.find? (fun l => decide (l.id = id))

/-- `CreateLinkRequest`. -/
structure CreateLinkRequest where
  original_url : String
  title : Option String
  description : Option String
  custom_code : Option String
deriving Repr, DecidableEq

/-- Outcome of `createLink` as observed by the HTTP layer. -/
inductive CreateOutcome where
  /-- The row was inserted; carries the new link and the new table. -/
  | created (link : TrackingLink) (store : List TrackingLink)
  /-- The thrown `'Custom short code already exists'`, mapped to HTTP 409. -/
  | conflict
  /-- A SQLite `UNIQUE constraint failed` error from the INSERT itself,
  mapped by the route's generic handler to HTTP 500. -/
  | constraintViolation
  /-- The unbounded generation loop ran out of modelled candidates. -/
  | generatorStuck
deriving Repr, DecidableEq

/-- The INSERT into `links`: the schema declares `short_code TEXT UNIQUE`,
so a row whose code collides with any existing row (active or not) raises a
constraint error instead of being inserted. -/
def insertLink (store : List TrackingLink) (shortCode : String) (req : CreateLinkRequest)
    (now : Int) (newId : Nat) : CreateOutcome :=
  if store.any (fun l => decide (l.short_code = shortCode)) then .constraintViolation
  else
    let link : TrackingLink :=
      { id := newId, short_code := shortCode, original_url := req.original_url,
        title := req.title, description := req.description, created_at := now,
        updated_at := now, clicks := 0, active := true }
    .created link (store ++ [link])

/-- `createLink`.  The `do … while (getLinkByCode(shortCode))` generation loop
is modelled by a finite stream `genCodes` of random candidates: the loop stops
at the first candidate for which `getLinkByCode` finds nothing. -/
def createLink (store : List TrackingLink) (req : CreateLinkRequest)
    (genCodes : List String) (now : Int) (newId : Nat) : CreateOutcome :=
  match req.custom_code with
  | some c =>
    if (getLinkByCode store c).isSome then .conflict
    else insertLink store c req now newId
  | none =>
    match genCodes.find? (fun g => (getLinkByCode store g).isNone) with
    | some g => insertLink store g req now newId
    | none => .generatorStuck

/-- `UpdateLinkRequest` (each `none` models an absent / `undefined` field). -/
structure UpdateLinkRequest where
  title : Option String
  description : Option String
  active : Option Bool
deriving Repr, DecidableEq

/-- `updateLink`: builds a SET clause from the provided fields only; with no
fields it performs no write at all. -/
def updateLink (store : List TrackingLink) (id : Nat) (d : UpdateLinkRequest)
    (now : Int) : List TrackingLink :=
  if d.title = none ∧ d.description = none ∧ d.active = none then store
  else
    store.map (fun l =>
      if l.id = id then
        { l with
          title := match d.title with | some t => some t | none => l.title,
          description := match d.description with | some s => some s | none => l.description,
          active := d.active.getD l.active,
          updated_at := now }
      else l)

/-- `recordClick`: appends the click row, then increments the link's counter.
(The autoincremented row id is immaterial to the claims and kept from `c`.) -/
def recordClick (store : List TrackingLink) (log : List ClickEvent) (linkId : Nat)
    (c : ClickEvent) : List TrackingLink × List ClickEvent :=
  (store.map (fun l => if l.id = linkId then { l with clicks := l.clicks + 1 } else l),
   log ++ [{ c with link_id := linkId }])

/-- Client-facing outcome of the tracking GET route. -/
inductive VisitOutcome where
  /-- HTTP 302 to the destination. -/
  | redirect (url : String)
  /-- HTTP 404. -/
  | notFound
  /-- HTTP 410. -/
  | gone
deriving Repr, DecidableEq

/-- The `GET /api/track/[code]` handler over the store state.  The detached
recording branch is folded in sequentially: its effects (click append and
counter increment) happen exactly when the redirect is issued, which is all
the claims depend on. -/
def handleVisitGET (store : List TrackingLink) (log : List ClickEvent) (code : String)
    (click : ClickEvent) : VisitOutcome × List TrackingLink × List ClickEvent :=
  match getLinkByCode store code with
  | none => (.notFound, store, log)
  | some link =>
    if !link.active then (.gone, store, log)
    else
      let st := recordClick store log link.id click
      (.redirect link.original_url, st.1, st.2)

/-! ### Generic in-memory grouping

All the aggregators group events with the same `Map` pattern: look the key up;
if present bump its count, otherwise insert it with count 1 (and, for the
geographic map, the payload captured at first sight).  A JS `Map` iterates in
insertion order, so the pattern is modelled on an association list. -/

/-- One `map.set(k, bump)` step of the grouping pattern. -/
def groupStep {κ α : Type} [DecidableEq κ] (acc : List (κ × α × Nat)) (k : κ) (a : α) :
    List (κ × α × Nat) :=
  if acc.any (fun e => decide (e.1 = k)) then
    acc.map (fun e => if e.1 = k then (e.1, e.2.1, e.2.2 + 1) else e)
  else acc ++ [(k, a, 1)]

/-- The whole grouping loop: events whose `key` is `none` are skipped. -/
def groupFold {σ κ α : Type} [DecidableEq κ] (key : σ → Option κ) (pay : σ → α)
    (l : List σ) : List (κ × α × Nat) :=
  l.foldl (fun acc c =>
    match key c with
    | some k => groupStep acc k (pay c)
    | none => acc) []

/-- Comparator for `.sort(([, a], [, b]) => b - a)` on grouped entries:
descending by count; JS `sort` is stable, as is `List.mergeSort`. -/
def countDescB {κ α : Type} (a b : κ × α × Nat) : Bool := decide (b.2.2 ≤ a.2.2)

/-- Total count stored in a grouping under key `k` (0 when `k` is absent). -/
def entryCount {κ α : Type} [DecidableEq κ] (es : List (κ × α × Nat)) (k : κ) : Nat :=
  (es.map (fun e => if e.1 = k then e.2.2 else 0)).sum

/-- Total count stored in a grouping across all keys. -/
def sumCounts {κ α : Type} (es : List (κ × α × Nat)) : Nat :=
  (es.map (fun e => e.2.2)).sum

/-! ### Analytics aggregator (`src/lib/analytics.ts`) -/

/-- UTC calendar day of an epoch-milliseconds timestamp
(the day named by `toISOString().split('T')[0]`). -/
def dayOf (ts : Int) : Int := ts / 86400000

/-- Local hour of day (`getHours()`) for a fixed-offset zone; `tz` in minutes. -/
def hourOf (tz : Int) (ts : Int) : Nat := ((ts + tz * 60000) / 3600000 % 24).toNat

/-- Local day of week (`getDay()`, Sunday = 0) for a fixed-offset zone. -/
def weekdayOf (tz : Int) (ts : Int) : Nat := (((ts + tz * 60000) / 86400000 + 4) % 7).toNat

/-- One point of the daily trend series (`TimeSeriesData`); the date string is
represented by its day number. -/
structure TimeSeriesData where
  date : Int
  clicks : Nat
deriving Repr, DecidableEq

/-- `calculateClickTrends`: a window of `days` calendar days, zero-filled,
counted from a `Map` keyed by each event's UTC date. -/
def calculateClickTrends (clicks : List ClickEvent) (days : Nat) (now : Int) :
    List TimeSeriesData :=
  let startDate := now - days * 86400000
  let dateRange := (List.range days).map (fun (i : Nat) => dayOf (startDate + i * 86400000))
  let clicksByDate : Int → Nat :=
    clicks.foldl (fun m c => fun d => if d = dayOf c.timestamp then m d + 1 else m d)
      (fun _ => 0)
  dateRange.map (fun d => { date := d, clicks := clicksByDate d })

/-- `calculateHourlyDistribution`: 24 pre-initialised buckets in key order. -/
def calculateHourlyDistribution (tz : Int) (clicks : List ClickEvent) :
    List (Nat × Nat) :=
  let hourlyData : Nat → Nat :=
    clicks.foldl (fun m c => fun h => if h = hourOf tz c.timestamp then m h + 1 else m h)
      (fun _ => 0)
  (List.range 24).map (fun h => (h, hourlyData h))

/-- `dayNames` from `calculateWeeklyDistribution`. -/
def dayNames : List String :=
  ["Sunday", "Monday", "Tuesday", "Wednesday", "Thursday", "Friday", "Saturday"]

/-- `calculateWeeklyDistribution`: 7 pre-initialised buckets in key order. -/
def calculateWeeklyDistribution (tz : Int) (clicks : List ClickEvent) :
    List (String × Nat) :=
  let weeklyData : Nat → Nat :=
    clicks.foldl (fun m c => fun i => if i = weekdayOf tz c.timestamp then m i + 1 else m i)
      (fun _ => 0)
  (List.range 7).map (fun i => (dayNames.getD i "", weeklyData i))

/-- The coordinate key under which `calculateGeographicDistribution` groups an
event: present exactly when `click.latitude && click.longitude` is truthy
(both present and both nonzero). -/
def coordKey (c : ClickEvent) : Option (ℚ × ℚ) :=
  match c.latitude, c.longitude with
  | some la, some lo => if la = 0 ∨ lo = 0 then none else some (la, lo)
  | _, _ => none

/-- `MapDataPoint`; `coordinates` is `[longitude, latitude]` as in the source. -/
structure MapDataPoint where
  coordinates : ℚ × ℚ
  country : String
  city : Option String
  clicks : Nat
  percentage : ℚ
deriving Repr, DecidableEq

/-- `calculateGeographicDistribution`: group by exact coordinate pair, then
attach each group's percentage of `clicks.length` (the full input length). -/
def calculateGeographicDistribution (clicks : List ClickEvent) : List MapDataPoint :=
  let locationMap := groupFold coordKey (fun c => (jsOr c.country "Unknown", c.city)) clicks
  let totalClicks := clicks.length
  locationMap.map (fun e =>
    { coordinates := (e.1.2, e.1.1), country := e.2.1.1, city := e.2.1.2,
      clicks := e.2.2, percentage := pct e.2.2 totalClicks })

/-- Minimal model of the WHATWG URL parser behind `new URL(url).hostname`
(a platform builtin, not repository code): accept `scheme "://" host …` with
an alphabetic nonempty scheme, the host running to the first `/ ? # :`.
Strings without `"://"` throw, exactly as in the counterexamples used here. -/
def findSchemeSplit : List Char → Option (List Char × List Char)
  | [] => none
  | c :: rest =>
    if c = Char.ofNat 58 ∧ rest.take 2 = [Char.ofNat 47, Char.ofNat 47] then
      some ([], rest.drop 2)
    else
      match findSchemeSplit rest with
      | some (sch, r) => some (c :: sch, r)
      | none => none

/-- Hostname extraction of the modelled URL parser. -/
def parseHostname (cs : List Char) : Option (List Char) :=
  match findSchemeSplit cs with
  | none => none
  | some (sch, rest) =>
    if sch ≠ [] ∧ sch.all Char.isAlpha then
      let host := rest.takeWhile (fun c =>
        !(c = Char.ofNat 47 ∨ c = Char.ofNat 63 ∨ c = Char.ofNat 35 ∨ c = Char.ofNat 58))
      if host = [] then none else some host
    else none

/-- `extractDomain`: hostname of a parseable referrer URL; otherwise the raw
string truncated to 50 characters with an ellipsis marker; `''`/`'Direct'`
map to `'Direct'`. -/
def extractDomain (url : String) : String :=
  if url = "" ∨ url = "Direct" then "Direct"
  else
    match parseHostname url.toList with
    | some h => String.mk h
    | none =>
      if url.toList.length > 50 then String.mk (url.toList.take 50) ++ "..." else url

/-- The referrer-domain key of one click: `extractDomain(click.referer || 'Direct')`. -/
def referrerKeyOf (c : ClickEvent) : String := extractDomain (jsOr c.referer "Direct")

/-- One entry of the top-referrers result. -/
structure ReferrerStat where
  referrer : String
  clicks : Nat
  percentage : ℚ
deriving Repr, DecidableEq

/-- `calculateTopReferrers`: group by referrer domain, stable-sort descending
by count (JS `sort` is stable), truncate to `limit`, attach percentages of the
full input length. -/
def calculateTopReferrers (clicks : List ClickEvent) (limit : Nat := 10) :
    List ReferrerStat :=
  let referrerMap := groupFold (fun c => some (referrerKeyOf c)) (fun _ => ()) clicks
  let totalClicks := clicks.length
  ((referrerMap.mergeSort countDescB).take limit).map
    (fun e => { referrer := e.1, clicks := e.2.2, percentage := pct e.2.2 totalClicks })

/-- `hay.includes(needle)` on character lists. -/
def charsIncludes (needle : List Char) : List Char → Bool
  | [] => needle.isEmpty
  | c :: rest => needle.isPrefixOf (c :: rest) || charsIncludes needle rest

/-- `parseUserAgent`: case-insensitive substring matching in the source's
fixed priority order; returns `(browser, device, os)`. -/
def parseUserAgent (userAgent : String) : String × String × String :=
  let ua := userAgent.toList.map Char.toLower
  let has := fun (s : String) => charsIncludes s.toList ua
  let browser :=
    if has "chrome" && !has "edg" then "Chrome"
    else if has "firefox" then "Firefox"
    else if has "safari" && !has "chrome" then "Safari"
    else if has "edg" then "Edge"
    else if has "opera" then "Opera"
    else "Unknown"
  let device :=
    if has "mobile" then "Mobile"
    else if has "tablet" || has "ipad" then "Tablet"
    else "Desktop"
  let os :=
    if has "windows" then "Windows"
    else if has "mac os" then "macOS"
    else if has "linux" then "Linux"
    else if has "android" then "Android"
    else if has "ios" || has "iphone" || has "ipad" then "iOS"
    else "Unknown"
  (browser, device, os)

/-- One entry of a device/browser/OS histogram. -/
structure NameStat where
  name : String
  clicks : Nat
  percentage : ℚ
deriving Repr, DecidableEq

/-- Result shape of `calculateDeviceStats`. -/
structure DeviceStats where
  browsers : List NameStat
  devices : List NameStat
  operatingSystems : List NameStat
deriving Repr, DecidableEq

/-- The `createStats` helper of `calculateDeviceStats`: stable descending sort
plus percentages of the full input length. -/
def createStats (m : List (String × Unit × Nat)) (totalClicks : Nat) : List NameStat :=
  (m.mergeSort countDescB).map
    (fun e => { name := e.1, clicks := e.2.2, percentage := pct e.2.2 totalClicks })

/-- `calculateDeviceStats`; an absent (or empty, hence falsy) user-agent
string counts as `Unknown` on all three axes. -/
def calculateDeviceStats (clicks : List ClickEvent) : DeviceStats :=
  let classOf := fun (c : ClickEvent) (pick : String × String × String → String) =>
    match c.user_agent with
    | some ua => if ua = "" then "Unknown" else pick (parseUserAgent ua)
    | none => "Unknown"
  let browserMap := groupFold (fun c => some (classOf c (fun p => p.1))) (fun _ => ()) clicks
  let deviceMap := groupFold (fun c => some (classOf c (fun p => p.2.1))) (fun _ => ()) clicks
  let osMap := groupFold (fun c => some (classOf c (fun p => p.2.2))) (fun _ => ()) clicks
  let totalClicks := clicks.length
  { browsers := createStats browserMap totalClicks,
    devices := createStats deviceMap totalClicks,
    operatingSystems := createStats osMap totalClicks }

/-- `calculateClickVelocity`: clicks in the trailing `hours` hours divided by
`hours`, rounded to 2 decimals. -/
def calculateClickVelocity (clicks : List ClickEvent) (now : Int) (hours : Nat := 24) : ℚ :=
  let startTime := now - hours * 3600000
  let recent := clicks.filter (fun c => decide (startTime ≤ c.timestamp))
  (jsRound ((recent.length : ℚ) / (hours : ℚ) * 100) : ℚ) / 100

/-- `Array.prototype.reduce` without an initial value, as used by
`calculatePeakTimes`: the head seeds the fold (the source never applies it to
an empty array; `dflt` is returned only in that impossible case). -/
def reduceFirstMax {α : Type} (f : α → Nat) (dflt : α) : List α → α
  | [] => dflt
  | h :: t => t.foldl (fun mx cur => if f mx < f cur then cur else mx) h

/-- `calculatePeakTimes`: first-encountered maximum of the hourly and weekly
distributions; returns `(peakHour, peakDay, peakHourClicks, peakDayClicks)`. -/
def calculatePeakTimes (tz : Int) (clicks : List ClickEvent) :
    Nat × String × Nat × Nat :=
  let ph := reduceFirstMax (fun e => e.2) (0, 0) (calculateHourlyDistribution tz clicks)
  let pd := reduceFirstMax (fun e => e.2) ("", 0) (calculateWeeklyDistribution tz clicks)
  (ph.1, pd.1, ph.2, pd.2)

/-- Result shape of `generateAnalyticsSummary`. -/
structure AnalyticsSummary where
  totalClicks : Nat
  uniqueClicks : Nat
  avgClicksPerDay : ℚ
  clickVelocity : ℚ
  topCountry : Option String
  topCity : Option String
  peakHour : Nat
  peakDay : String
deriving Repr, DecidableEq

/-- The country / city grouping keys of the summary (`if (click.country)` is a
JS truthiness test, so empty strings are skipped too). -/
def truthyKey (o : Option String) : Option String :=
  match o with
  | some s => if s = "" then none else some s
  | none => none

/-- `generateAnalyticsSummary`.  Note that the day-span divisor is computed
from `clicks[clicks.length - 1]`, the **last** element of the input array. -/
def generateAnalyticsSummary (tz : Int) (clicks : List ClickEvent) (now : Int) :
    AnalyticsSummary :=
  let totalClicks := clicks.length
  let uniqueIPs := (clicks.map (fun c => c.ip_address)).dedup.length
  let dateRange : Int :=
    match clicks.getLast? with
    | some c => max 1 (jsCeil (((now - c.timestamp : Int) : ℚ) / 86400000))
    | none => 1
  let avgClicksPerDay : ℚ :=
    (jsRound ((totalClicks : ℚ) / (dateRange : ℚ) * 100) : ℚ) / 100
  let countryCounts := groupFold (fun c => truthyKey c.country) (fun _ => ()) clicks
  let cityCounts := groupFold (fun c => truthyKey c.city) (fun _ => ()) clicks
  let topCountry :=
    (countryCounts.mergeSort countDescB).head?.map (fun e => e.1)
  let topCity :=
    (cityCounts.mergeSort countDescB).head?.map (fun e => e.1)
  let pt := calculatePeakTimes tz clicks
  { totalClicks := totalClicks, uniqueClicks := uniqueIPs,
    avgClicksPerDay := avgClicksPerDay,
    clickVelocity := calculateClickVelocity clicks now 24,
    topCountry := topCountry, topCity := topCity,
    peakHour := pt.1, peakDay := pt.2.1 }

/-- The claim's reading of the average, for comparison: total divided by the
span in days between the **oldest** event in the list and now (span rounded
up, minimum divisor 1), rounded to 2 decimal places; 0 for an empty list. -/
def avgClicksPerDaySpec (clicks : List ClickEvent) (now : Int) : ℚ :=
  match (clicks.map (fun c => c.timestamp)).min? with
  | some t0 =>
    (jsRound ((clicks.length : ℚ) /
      ((max 1 (jsCeil (((now - t0 : Int) : ℚ) / 86400000)) : ℤ) : ℚ) * 100) : ℚ) / 100
  | none => 0

/-- The claim's reading of the geographic validity predicate: both
coordinates present and in range, and the pair not exactly `(0, 0)`. -/
def isValidCoordinatesSpec (lat lon : Option ℚ) : Bool :=
  match lat, lon with
  | some a, some b =>
    decide (-90 ≤ a ∧ a ≤ 90 ∧ -180 ≤ b ∧ b ≤ 180 ∧ ¬(a = 0 ∧ b = 0))
  | _, _ => false

/-- The number of events carrying (truthy) coordinates — the claim's
"filtered total" for geographic percentages. -/
def filteredTotal (clicks : List ClickEvent) : Nat :=
  clicks.countP (fun c => (coordKey c).isSome)

/-! ### The analytics route (`GET /api/analytics/[id]`, `src/app/api/links/[id]/route.ts`) -/

/-- Comparator for `ORDER BY timestamp DESC`. -/
def tsDescB (a b : ClickEvent) : Bool := decide (b.timestamp ≤ a.timestamp)

/-- `recentClicks` of `getLinkAnalytics`:
`SELECT * FROM clicks WHERE link_id = ? ORDER BY timestamp DESC LIMIT 20`
(the stable sort refines SQLite's arbitrary tie order). -/
def recentClicks (log : List ClickEvent) : List ClickEvent :=
  (log.mergeSort tsDescB).take 20

/-- The advanced-analytics block assembled by the route. -/
structure AdvancedAnalytics where
  clickTrends : List TimeSeriesData
  hourlyDistribution : List (Nat × Nat)
  weeklyDistribution : List (String × Nat)
  geographicDistribution : List MapDataPoint
  topReferrers : List ReferrerStat
  deviceStats : DeviceStats
  summary : AnalyticsSummary
deriving Repr, DecidableEq

/-- The route's advanced-analytics computation: every figure is computed from
`analytics.recentClicks`, never from the full click log. -/
def advancedAnalytics (log : List ClickEvent) (days : Nat) (tz : Int) (now : Int) :
    AdvancedAnalytics :=
  let rc := recentClicks log
  { clickTrends := calculateClickTrends rc days now,
    hourlyDistribution := calculateHourlyDistribution tz rc,
    weeklyDistribution := calculateWeeklyDistribution tz rc,
    geographicDistribution := calculateGeographicDistribution rc,
    topReferrers := calculateTopReferrers rc 10,
    deviceStats := calculateDeviceStats rc,
    summary := generateAnalyticsSummary tz rc now }

/-! ### Concrete fixtures used by the witnesses and counterexamples -/

/-- A click event with every optional field absent. -/
def baseClick : ClickEvent :=
  { id := 0, link_id := 1, ip_address := "1.2.3.4", user_agent := none, referer := none,
    country := none, country_code := none, region := none, city := none,
    latitude := none, longitude := none, timezone := none, isp := none, timestamp := 0 }

/-- A deactivated link with short code `demo1`. -/
def inactiveLink : TrackingLink :=
  { id := 1, short_code := "demo1", original_url := "https://example.com",
    title := none, description := none, created_at := 0, updated_at := 0,
    clicks := 5, active := false }

/-- A deactivated link with short code `abc`. -/
def inactiveAbc : TrackingLink :=
  { id := 1, short_code := "abc", original_url := "https://example.com",
    title := none, description := none, created_at := 0, updated_at := 0,
    clicks := 0, active := false }

/-- A click at coordinates `(51.5, -0.1)`. -/
def geoA : ClickEvent := { baseClick with latitude := some (51.5 : ℚ), longitude := some (-0.1 : ℚ) }

/-- A second click at the same coordinates from another address. -/
def geoA2 : ClickEvent :=
  { baseClick with
    ip_address := "5.6.7.8", latitude := some (51.5 : ℚ), longitude := some (-0.1 : ℚ) }

/-- A click without coordinates. -/
def geoNone : ClickEvent := baseClick

/-- A click with a given raw referrer string. -/
def refClick (s : String) : ClickEvent := { baseClick with referer := some s }

/-- A click on UTC day 1 (for the trend-series window test). -/
def trendClick : ClickEvent := { baseClick with timestamp := 100000000 }

/-- A click at the epoch. -/
def clickT0 : ClickEvent := baseClick

/-- A click ten days after the epoch. -/
def clickT10 : ClickEvent := { baseClick with ip_address := "5.6.7.8", timestamp := 864000000 }

/-! ## Theorems -/

/-- Claim C1 (code bug evaluation): a tracking request for the short code of an
existing but deactivated link returns `NotFound` — not the `Gone` the claim
and the route's own unreachable 410 branch call for — because `getLinkByCode`
filters on `active = 1`; no counter is incremented and no click event is
appended.  An unknown code also returns `NotFound`. -/
theorem c1_inactive_returns_notFound :
    handleVisitGET [inactiveLink] [] "demo1" baseClick =
      (VisitOutcome.notFound, [inactiveLink], []) ∧
    handleVisitGET [inactiveLink] [] "nosuch" baseClick =
      (VisitOutcome.notFound, [inactiveLink], []) ∧
    VisitOutcome.notFound ≠ VisitOutcome.gone := by
  decide

/-- Claim C2 (counterexample): with the call budget exhausted
(`calls = maxCalls`, reset time not yet passed), `getLocationWithFallback` on
the private address `10.0.0.1` returns the `unknown` sentinel, not the
`private_ip` sentinel the claim demands "regardless of the call-budget
counter's state" (it does still make zero external calls). -/
theorem c2_counterexample :
    isPrivateIP "10.0.0.1" = true ∧
    getLocationWithFallback ⟨900, 1000000⟩ 0 "10.0.0.1" none none =
      (getFallbackLocation, ⟨900, 1000000⟩, 0) ∧
    getFallbackLocation.status ≠ "private_ip" := by
  decide

/-- Claim C2 (amended): for every private/loopback address, the resolver
performs zero external provider calls; it returns the `private_ip` sentinel
whenever the call-budget check passes, and the `unknown` sentinel when the
budget is exhausted. -/
theorem c2_private_ip_short_circuit (s : RateLimitState) (now : Int) (ip : String)
    (p : Option PrimaryReply) (f : Option FallbackReply)
    (h : isPrivateIP ip = true) :
    (getLocationWithFallback s now ip p f).2.2 = 0 ∧
    (getLocationWithFallback s now ip p f).1 =
      (if (canMakeCall s now).1 then privateIPLocation else getFallbackLocation) ∧
    privateIPLocation.status = "private_ip" := by
  unfold getLocationWithFallback
  cases hok : (canMakeCall s now).1 <;>
    simp [hok, getLocationFromIP, h, privateIPLocation]

/-- Witness for C2: the amended theorem applied to `10.0.0.1` with a fresh
counter. -/
theorem c2_witness :
    (getLocationWithFallback ⟨0, 1000⟩ 0 "10.0.0.1" none none).2.2 = 0 ∧
    (getLocationWithFallback ⟨0, 1000⟩ 0 "10.0.0.1" none none).1 =
      (if (canMakeCall ⟨0, 1000⟩ 0).1 then privateIPLocation else getFallbackLocation) ∧
    privateIPLocation.status = "private_ip" :=
  c2_private_ip_short_circuit ⟨0, 1000⟩ 0 "10.0.0.1" none none (by decide)

/-- Claim C3 (code bug evaluation): with an *inactive* link holding code
`abc`, a `createLink` with custom code `abc` passes the duplicate check
(which only consults active links) and then dies on the table's UNIQUE
constraint — surfaced as a generic error, not the `Conflict`; a generated
code `abc` is likewise accepted by the generation loop and then fails the
INSERT. -/
theorem c3_inactive_duplicate :
    createLink [inactiveAbc]
      { original_url := "https://example.com", title := none, description := none,
        custom_code := some "abc" } [] 0 2 = CreateOutcome.constraintViolation ∧
    createLink [inactiveAbc]
      { original_url := "https://example.com", title := none, description := none,
        custom_code := none } ["abc"] 0 2 = CreateOutcome.constraintViolation ∧
    CreateOutcome.constraintViolation ≠ CreateOutcome.conflict := by
  decide

/-- Claim C8 (counterexample): latitude `0` with longitude `10` is rejected by
`isValidCoordinates` although the pair is in range and is not `(0, 0)`, so
the check does not reject "exactly" the claimed set. -/
theorem c8_counterexample :
    isValidCoordinates (some 0) (some 10) = false ∧
    isValidCoordinatesSpec (some 0) (some 10) = true := by
  decide

/-- Claim C8 (amended): the validity check accepts exactly the pairs that are
present, in range, and have **both** coordinates nonzero (the whole equator
and prime meridian are rejected, not just `(0, 0)`). -/
theorem c8_validity_characterisation (lat lon : Option ℚ) :
    isValidCoordinates lat lon = true ↔
      ∃ a b, lat = some a ∧ lon = some b ∧
        -90 ≤ a ∧ a ≤ 90 ∧ -180 ≤ b ∧ b ≤ 180 ∧ a ≠ 0 ∧ b ≠ 0 := by
  cases lat with
  | none => simp [isValidCoordinates]
  | some a =>
    cases lon with
    | none => simp [isValidCoordinates]
    | some b =>
      simp only [isValidCoordinates, decide_eq_true_eq, Option.some_inj]
      constructor
      · rintro ⟨h1, h2, h3, h4, h5, h6⟩
        exact ⟨a, b, rfl, rfl, h1, h2, h3, h4, h5, h6⟩
      · rintro ⟨x, y, hx, hy, h1, h2, h3, h4, h5, h6⟩
        subst hx; subst hy
        exact ⟨h1, h2, h3, h4, h5, h6⟩

/-- Claim C9: `updateLink` never changes a link's id, short code, destination
URL, creation time, or click counter — whatever combination of title,
description and active flag the update request carries. -/
theorem c9_update_preserves_frame (store : List TrackingLink) (id : Nat)
    (d : UpdateLinkRequest) (now : Int) :
    (updateLink store id d now).map
        (fun l => (l.id, l.short_code, l.original_url, l.created_at, l.clicks)) =
      store.map (fun l => (l.id, l.short_code, l.original_url, l.created_at, l.clicks)) := by
  unfold updateLink
  split
  · rfl
  · rw [List.map_map]
    apply List.map_congr_left
    intro l _
    by_cases h : l.id = id <;> simp [h]

/-- Evaluating the `clicksByDate` map of `calculateClickTrends`: the count
stored under a day equals the number of clicks falling on that day. -/
theorem clicksByDate_eval (l : List ClickEvent) :
    ∀ (m : Int → Nat) (d : Int),
    (l.foldl (fun m c => fun d => if d = dayOf c.timestamp then m d + 1 else m d) m) d =
      m d + l.countP (fun c => decide (dayOf c.timestamp = d)) := by
  induction l with
  | nil => intro m d; simp
  | cons c l ih =>
    intro m d
    simp only [List.foldl_cons, List.countP_cons, ih]
    by_cases h : dayOf c.timestamp = d
    · subst h
      simp
      omega
    · have h2 : ¬(d = dayOf c.timestamp) := fun e => h e.symm
      simp [h, h2]

/-- Day arithmetic for the trend window: the `i`-th generated date is
`dayOf now - days + i`. -/
theorem dayOf_shift (now : Int) (days i : Nat) :
    dayOf (now - days * 86400000 + i * 86400000) = dayOf now - days + i := by
  have h : now - (days : Int) * 86400000 + (i : Int) * 86400000 =
      now + ((i : Int) - days) * 86400000 := by ring
  unfold dayOf
  rw [h, Int.add_mul_ediv_right _ _ (by norm_num)]
  ring

/-- Splitting the day-window count at its newest day. -/
theorem countP_window_succ (clicks : List ClickEvent) (s : Int) (n : Nat) :
    clicks.countP (fun c => decide (s ≤ dayOf c.timestamp ∧
        dayOf c.timestamp < s + ((n + 1 : Nat) : Int))) =
      clicks.countP (fun c => decide (s ≤ dayOf c.timestamp ∧
        dayOf c.timestamp < s + (n : Int))) +
      clicks.countP (fun c => decide (dayOf c.timestamp = s + (n : Int))) := by
  induction clicks with
  | nil => simp
  | cons c l ih =>
    simp only [List.countP_cons, ih, decide_eq_true_eq]
    push_cast
    split_ifs <;> omega

/-- Summing the per-day counts over the window recovers the number of events
whose day falls in the window. -/
theorem sum_range_dayCount (clicks : List ClickEvent) (s : Int) (n : Nat) :
    ((List.range n).map (fun (i : Nat) =>
        clicks.countP (fun c => decide (dayOf c.timestamp = s + (i : Int))))).sum =
      clicks.countP (fun c => decide (s ≤ dayOf c.timestamp ∧
        dayOf c.timestamp < s + (n : Int))) := by
  induction n with
  | zero =>
    simp only [List.range_zero, List.map_nil, List.sum_nil]
    symm
    rw [List.countP_eq_zero]
    intro c _
    simp only [decide_eq_true_eq]
    push_cast
    omega
  | succ n ih =>
    rw [List.range_succ, List.map_append, List.sum_append, ih, countP_window_succ]
    simp

/-- Closed form of `calculateClickTrends`. -/
theorem calculateClickTrends_eq (clicks : List ClickEvent) (days : Nat) (now : Int) :
    calculateClickTrends clicks days now =
      (List.range days).map (fun (i : Nat) =>
        { date := dayOf now - days + i,
          clicks := clicks.countP
            (fun c => decide (dayOf c.timestamp = dayOf now - days + i)) }) := by
  simp only [calculateClickTrends, List.map_map]
  apply List.map_congr_left
  intro i _
  simp only [Function.comp_apply, dayOf_shift, clicksByDate_eval]
  simp

/-- Claim C6: for every click list, requested day count and reference time,
the trend series has exactly `days` points, the `i`-th point covers UTC day
`dayOf now - days + i` (so the days run oldest to newest, zero-filled) and
counts exactly the events of that day, and the series total equals the number
of events whose UTC day falls in the window; events outside contribute to no
point. -/
theorem c6_trend_series (clicks : List ClickEvent) (days : Nat) (now : Int) :
    (calculateClickTrends clicks days now).length = days ∧
    (∀ i : Nat, i < days →
      (calculateClickTrends clicks days now)[i]? =
        some { date := dayOf now - days + i,
               clicks := clicks.countP
                 (fun c => decide (dayOf c.timestamp = dayOf now - days + i)) }) ∧
    ((calculateClickTrends clicks days now).map (fun p => p.clicks)).sum =
      clicks.countP (fun c => decide (dayOf now - days ≤ dayOf c.timestamp ∧
        dayOf c.timestamp < dayOf now)) := by
  rw [calculateClickTrends_eq]
  refine ⟨by simp, ?_, ?_⟩
  · intro i hi
    rw [List.getElem?_map, List.getElem?_range hi]
    rfl
  · rw [List.map_map]
    have h := sum_range_dayCount clicks (dayOf now - days) days
    have harith : dayOf now - (days : Int) + (days : Int) = dayOf now := by ring
    rw [harith] at h
    simp only [Function.comp_def]
    exact h

/-- Witness for C6: a two-day window ending at `now = 172800000` (UTC day 2);
the unique click on day 1 lands in the newest point. -/
theorem c6_witness :
    (calculateClickTrends [trendClick] 2 172800000)[1]? =
      some { date := 1, clicks := 1 } := by
  have h := (c6_trend_series [trendClick] 2 172800000).2.1 1 (by decide)
  exact h.trans (by decide)

/-- In a list sorted newest-first, the folded minimum of the timestamps is the
last element's timestamp. -/
theorem foldl_min_timestamp_desc (l : List ClickEvent) :
    ∀ (a : ClickEvent),
    (a :: l).Pairwise (fun x y => y.timestamp ≤ x.timestamp) →
    (l.map (fun c => c.timestamp)).foldl min a.timestamp =
      ((a :: l).getLast (List.cons_ne_nil a l)).timestamp := by
  induction l with
  | nil => intro a _; simp [List.getLast]
  | cons b t ih =>
    intro a h
    have hba : b.timestamp ≤ a.timestamp :=
      (List.pairwise_cons.mp h).1 b (List.mem_cons_self b t)
    have ht : (b :: t).Pairwise (fun x y => y.timestamp ≤ x.timestamp) :=
      (List.pairwise_cons.mp h).2
    simp only [List.map_cons, List.foldl_cons]
    rw [min_eq_right hba, ih b ht, List.getLast_cons (List.cons_ne_nil b t)]

/-- Claim C7 (amended): whenever the click list is ordered newest-first — as
the analytics route supplies it — the summary's `avgClicksPerDay` agrees with
the claim's reading (span measured from the oldest event), because the last
array element the code uses is then the oldest event; for an empty list both
sides are 0. -/
theorem c7_avg_matches_oldest (tz : Int) (clicks : List ClickEvent) (now : Int)
    (h : clicks.Pairwise (fun a b => b.timestamp ≤ a.timestamp)) :
    (generateAnalyticsSummary tz clicks now).avgClicksPerDay =
      avgClicksPerDaySpec clicks now := by
  cases clicks with
  | nil =>
    simp [generateAnalyticsSummary, avgClicksPerDaySpec, jsRound]
    norm_num
  | cons a l =>
    have hne : (a :: l) ≠ [] := List.cons_ne_nil a l
    have hlast : (a :: l).getLast? = some ((a :: l).getLast hne) :=
      List.getLast?_eq_getLast _ hne
    have hmin : ((a :: l).map (fun c => c.timestamp)).min? =
        some (((a :: l).getLast hne).timestamp) := by
      have hc : ((a :: l).map (fun c => c.timestamp)).min? =
          some ((l.map (fun c => c.timestamp)).foldl min a.timestamp) := rfl
      rw [hc, foldl_min_timestamp_desc l a h]
    simp only [generateAnalyticsSummary, avgClicksPerDaySpec, hlast, hmin]

/-- Claim C7 (counterexample): two events, oldest first — the code measures
the span from the *last* element (the newest, at `now`), giving divisor 1 and
average 2, while the claim's span from the oldest event gives divisor 10 and
average 0.2. -/
theorem c7_counterexample :
    (generateAnalyticsSummary 0 [clickT0, clickT10] 864000000).avgClicksPerDay = 2 ∧
    avgClicksPerDaySpec [clickT0, clickT10] 864000000 = 1 / 5 ∧
    ((2 : ℚ) ≠ 1 / 5) := by
  refine ⟨?_, ?_, by norm_num⟩
  · norm_num [generateAnalyticsSummary, clickT0, clickT10, baseClick, jsRound, jsCeil]
  · norm_num [avgClicksPerDaySpec, clickT0, clickT10, baseClick, jsRound, jsCeil, List.min?]

/-- Witness for C7: the amended theorem applied to a newest-first list. -/
theorem c7_witness :
    (generateAnalyticsSummary 0 [clickT10, clickT0] 864000000).avgClicksPerDay =
      avgClicksPerDaySpec [clickT10, clickT0] 864000000 :=
  c7_avg_matches_oldest 0 [clickT10, clickT0] 864000000 (by decide)

/-- `tsDescB` is transitive. -/
theorem tsDescB_trans : ∀ (a b c : ClickEvent), tsDescB a b → tsDescB b c → tsDescB a c := by
  intro a b c hab hbc
  simp only [tsDescB, decide_eq_true_eq] at *
  omega

/-- `tsDescB` is total. -/
theorem tsDescB_total : ∀ (a b : ClickEvent), tsDescB a b || tsDescB b a := by
  intro a b
  simp only [tsDescB, Bool.or_eq_true, decide_eq_true_eq]
  omega

/-- Taking the newest 20 of an already newest-first-sorted 20 changes nothing. -/
theorem recentClicks_idem (log : List ClickEvent) :
    recentClicks (recentClicks log) = recentClicks log := by
  unfold recentClicks
  rw [List.mergeSort_of_sorted
    (List.Pairwise.sublist (List.take_sublist 20 _)
      (List.sorted_mergeSort tsDescB_trans tsDescB_total log))]
  rw [List.take_take, min_self]

/-- Claim C10: the route's advanced analytics block — trends, hourly, weekly,
geographic, referrers, device stats, and the summary with its totalClicks and
uniqueClicks — is a function of `recentClicks log` alone (the at-most-20 most
recent events), never of the full log: recomputing from `recentClicks log`
gives the same block, the summary's total is capped at 20, and `recentClicks
log` extends, by newest-first order, to a permutation of the full log. -/
theorem c10_advanced_on_recent20 (log : List ClickEvent) (days : Nat) (tz now : Int) :
    advancedAnalytics log days tz now = advancedAnalytics (recentClicks log) days tz now ∧
    (advancedAnalytics log days tz now).summary.totalClicks = min 20 log.length ∧
    ∃ rest : List ClickEvent,
      (recentClicks log ++ rest).Pairwise (fun a b => b.timestamp ≤ a.timestamp) ∧
      (recentClicks log ++ rest).Perm log := by
  have heq : recentClicks log ++ (log.mergeSort tsDescB).drop 20 = log.mergeSort tsDescB := by
    unfold recentClicks
    exact List.take_append_drop 20 _
  refine ⟨?_, ?_, ?_⟩
  · simp only [advancedAnalytics, recentClicks_idem]
  · show (recentClicks log).length = min 20 log.length
    unfold recentClicks
    rw [List.length_take, List.length_mergeSort]
  · refine ⟨(log.mergeSort tsDescB).drop 20, ?_, ?_⟩
    · rw [heq]
      exact (List.sorted_mergeSort tsDescB_trans tsDescB_total log).imp
        (fun h => by simpa [tsDescB] using h)
    · rw [heq]
      exact List.mergeSort_perm log tsDescB

/-! ### Properties of the generic grouping fold -/

/-- `entryCount` of a cons. -/
theorem entryCount_cons {κ α : Type} [DecidableEq κ] (x : κ × α × Nat)
    (l : List (κ × α × Nat)) (k : κ) :
    entryCount (x :: l) k = (if x.1 = k then x.2.2 else 0) + entryCount l k := by
  unfold entryCount
  simp

/-- `entryCount` of an append. -/
theorem entryCount_append {κ α : Type} [DecidableEq κ] (es fs : List (κ × α × Nat)) (k : κ) :
    entryCount (es ++ fs) k = entryCount es k + entryCount fs k := by
  unfold entryCount
  rw [List.map_append, List.sum_append]

/-- `entryCount` of an absent key is zero. -/
theorem entryCount_eq_zero_of_not_mem {κ α : Type} [DecidableEq κ]
    (es : List (κ × α × Nat)) (k : κ) (h : k ∉ es.map (fun e => e.1)) :
    entryCount es k = 0 := by
  induction es with
  | nil => rfl
  | cons e t ih =>
    simp only [List.map_cons, List.mem_cons, not_or] at h
    rw [entryCount_cons, if_neg (fun he => h.1 he.symm), ih h.2]

/-- With no duplicate keys, `entryCount` at a member's key is that member's
count. -/
theorem entryCount_of_mem {κ α : Type} [DecidableEq κ]
    (es : List (κ × α × Nat)) (hnd : (es.map (fun e => e.1)).Nodup)
    {e : κ × α × Nat} (he : e ∈ es) :
    entryCount es e.1 = e.2.2 := by
  induction es with
  | nil => cases he
  | cons x t ih =>
    have hnd2 : x.1 ∉ t.map (fun e => e.1) ∧ (t.map (fun e => e.1)).Nodup := by
      simpa [List.nodup_cons] using hnd
    rcases List.mem_cons.mp he with rfl | hm
    · rw [entryCount_cons, if_pos rfl, entryCount_eq_zero_of_not_mem t e.1 hnd2.1]
      omega
    · have hne : x.1 ≠ e.1 := by
        intro hEq
        exact hnd2.1 (hEq ▸ List.mem_map.mpr ⟨e, hm, rfl⟩)
      rw [entryCount_cons, if_neg hne, ih hnd2.2 hm, Nat.zero_add]

/-- Keys after one grouping step. -/
theorem keysOf_groupStep {κ α : Type} [DecidableEq κ] (acc : List (κ × α × Nat))
    (k : κ) (a : α) :
    (groupStep acc k a).map (fun e => e.1) =
      if acc.any (fun e => decide (e.1 = k)) then acc.map (fun e => e.1)
      else acc.map (fun e => e.1) ++ [k] := by
  unfold groupStep
  by_cases h : acc.any (fun e => decide (e.1 = k)) = true
  · simp only [h, if_true, List.map_map]
    apply List.map_congr_left
    intro e _
    by_cases he : e.1 = k <;> simp [he]
  · simp [h]

/-- One grouping step keeps the keys duplicate-free. -/
theorem nodup_keys_groupStep {κ α : Type} [DecidableEq κ] (acc : List (κ × α × Nat))
    (k : κ) (a : α) (hnd : (acc.map (fun e => e.1)).Nodup) :
    ((groupStep acc k a).map (fun e => e.1)).Nodup := by
  rw [keysOf_groupStep]
  by_cases h : acc.any (fun e => decide (e.1 = k)) = true
  · simpa [h] using hnd
  · have hk : k ∉ acc.map (fun e => e.1) := by
      intro hmem
      rcases List.mem_map.mp hmem with ⟨e, he, heq⟩
      exact h (List.any_eq_true.mpr ⟨e, he, by simp [heq]⟩)
    simp [h, List.nodup_append, hnd, hk]

/-- Key membership after one grouping step. -/
theorem mem_keys_groupStep {κ α : Type} [DecidableEq κ] (acc : List (κ × α × Nat))
    (k k2 : κ) (a : α) :
    k2 ∈ (groupStep acc k a).map (fun e => e.1) ↔
      k2 ∈ acc.map (fun e => e.1) ∨ k2 = k := by
  rw [keysOf_groupStep]
  by_cases h : acc.any (fun e => decide (e.1 = k)) = true
  · simp only [h, if_true]
    constructor
    · exact Or.inl
    · rintro (hm | rfl)
      · exact hm
      · rcases List.any_eq_true.mp h with ⟨e, he, hek⟩
        exact List.mem_map.mpr ⟨e, he, of_decide_eq_true hek⟩
  · simp [h, List.mem_append]

/-- Bumping every entry with key `k` adds the key's multiplicity to
`entryCount · k2` exactly when `k2 = k`. -/
theorem entryCount_map_bump {κ α : Type} [DecidableEq κ] (acc : List (κ × α × Nat))
    (k k2 : κ) :
    entryCount (acc.map (fun e => if e.1 = k then (e.1, e.2.1, e.2.2 + 1) else e)) k2 =
      entryCount acc k2 +
        (if k2 = k then (acc.map (fun e => e.1)).count k else 0) := by
  induction acc with
  | nil => simp [entryCount]
  | cons e t ih =>
    rw [List.map_cons]
    by_cases h1 : e.1 = k
    · rw [if_pos h1, entryCount_cons, entryCount_cons, ih, List.map_cons, List.count_cons]
      subst h1
      by_cases h2 : e.1 = k2
      · simp [h2]
        omega
      · have h2b : ¬(k2 = e.1) := fun he => h2 he.symm
        simp [h2, h2b]
    · rw [if_neg h1, entryCount_cons, entryCount_cons, ih, List.map_cons, List.count_cons]
      by_cases h3 : k2 = k
      · simp [h1, h3]
      · simp [h1, h3]

/-- `entryCount` after one grouping step. -/
theorem entryCount_groupStep {κ α : Type} [DecidableEq κ] (acc : List (κ × α × Nat))
    (k k2 : κ) (a : α) (hnd : (acc.map (fun e => e.1)).Nodup) :
    entryCount (groupStep acc k a) k2 =
      entryCount acc k2 + if k2 = k then 1 else 0 := by
  unfold groupStep
  by_cases h : acc.any (fun e => decide (e.1 = k)) = true
  · rw [if_pos h, entryCount_map_bump]
    congr 1
    by_cases h3 : k2 = k
    · rcases List.any_eq_true.mp h with ⟨e, he, hek⟩
      have hkmem : k ∈ acc.map (fun e => e.1) :=
        List.mem_map.mpr ⟨e, he, of_decide_eq_true hek⟩
      simp [h3, List.count_eq_one_of_mem hnd hkmem]
    · simp [h3]
  · rw [if_neg h, entryCount_append, entryCount_cons]
    by_cases h3 : k2 = k
    · simp [h3, entryCount]
    · have h3b : ¬(k = k2) := fun he => h3 he.symm
      simp [h3, h3b, entryCount]

/-- `sumCounts` of a cons. -/
theorem sumCounts_cons {κ α : Type} (x : κ × α × Nat) (l : List (κ × α × Nat)) :
    sumCounts (x :: l) = x.2.2 + sumCounts l := by
  unfold sumCounts
  simp

/-- `sumCounts` of a bump. -/
theorem sumCounts_map_bump {κ α : Type} [DecidableEq κ] (acc : List (κ × α × Nat)) (k : κ) :
    sumCounts (acc.map (fun e => if e.1 = k then (e.1, e.2.1, e.2.2 + 1) else e)) =
      sumCounts acc + (acc.map (fun e => e.1)).count k := by
  induction acc with
  | nil => simp [sumCounts]
  | cons e t ih =>
    rw [List.map_cons]
    by_cases h1 : e.1 = k
    · rw [if_pos h1, sumCounts_cons, sumCounts_cons, ih, List.map_cons, List.count_cons]
      subst h1
      simp
      omega
    · rw [if_neg h1, sumCounts_cons, sumCounts_cons, ih, List.map_cons, List.count_cons]
      simp [h1]
      omega

/-- One grouping step adds exactly one to the total count. -/
theorem sumCounts_groupStep {κ α : Type} [DecidableEq κ] (acc : List (κ × α × Nat))
    (k : κ) (a : α) (hnd : (acc.map (fun e => e.1)).Nodup) :
    sumCounts (groupStep acc k a) = sumCounts acc + 1 := by
  unfold groupStep
  by_cases h : acc.any (fun e => decide (e.1 = k)) = true
  · rw [if_pos h, sumCounts_map_bump]
    rcases List.any_eq_true.mp h with ⟨e, he, hek⟩
    rw [List.count_eq_one_of_mem hnd (List.mem_map.mpr ⟨e, he, of_decide_eq_true hek⟩)]
  · rw [if_neg h]
    unfold sumCounts
    simp

/-- The grouping loop keeps keys duplicate-free. -/
theorem groupFold_go_nodup {σ κ α : Type} [DecidableEq κ] (key : σ → Option κ)
    (pay : σ → α) :
    ∀ (l : List σ) (acc : List (κ × α × Nat)),
    (acc.map (fun e => e.1)).Nodup →
    (((l.foldl (fun acc c =>
        match key c with
        | some k => groupStep acc k (pay c)
        | none => acc) acc).map (fun e => e.1)).Nodup) := by
  intro l
  induction l with
  | nil => intro acc h; exact h
  | cons c t ih =>
    intro acc h
    rw [List.foldl_cons]
    cases hk : key c with
    | none => simpa [hk] using ih acc h
    | some kc => simpa [hk] using ih (groupStep acc kc (pay c)) (nodup_keys_groupStep acc kc _ h)

/-- The grouping loop accumulates, per key, the number of events with that
key. -/
theorem groupFold_go_entryCount {σ κ α : Type} [DecidableEq κ] (key : σ → Option κ)
    (pay : σ → α) :
    ∀ (l : List σ) (acc : List (κ × α × Nat)),
    (acc.map (fun e => e.1)).Nodup →
    ∀ k, entryCount (l.foldl (fun acc c =>
        match key c with
        | some k => groupStep acc k (pay c)
        | none => acc) acc) k =
      entryCount acc k + l.countP (fun c => decide (key c = some k)) := by
  intro l
  induction l with
  | nil => intro acc _ k; simp
  | cons c t ih =>
    intro acc h k
    rw [List.foldl_cons, List.countP_cons]
    cases hk : key c with
    | none =>
      simp only [hk]
      rw [ih acc h k]
      simp
    | some kc =>
      simp only [hk]
      rw [ih (groupStep acc kc (pay c)) (nodup_keys_groupStep acc kc _ h) k,
        entryCount_groupStep acc kc k _ h]
      by_cases h2 : k = kc
      · simp [h2]
        omega
      · have h2b : ¬(kc = k) := fun he => h2 he.symm
        simp [h2, h2b]

/-- The grouping loop accumulates one unit of total count per keyed event. -/
theorem groupFold_go_sumCounts {σ κ α : Type} [DecidableEq κ] (key : σ → Option κ)
    (pay : σ → α) :
    ∀ (l : List σ) (acc : List (κ × α × Nat)),
    (acc.map (fun e => e.1)).Nodup →
    sumCounts (l.foldl (fun acc c =>
        match key c with
        | some k => groupStep acc k (pay c)
        | none => acc) acc) =
      sumCounts acc + l.countP (fun c => (key c).isSome) := by
  intro l
  induction l with
  | nil => intro acc _; simp
  | cons c t ih =>
    intro acc h
    rw [List.foldl_cons, List.countP_cons]
    cases hk : key c with
    | none =>
      simp only [hk]
      rw [ih acc h]
      simp
    | some kc =>
      simp only [hk]
      rw [ih (groupStep acc kc (pay c)) (nodup_keys_groupStep acc kc _ h),
        sumCounts_groupStep acc kc _ h]
      simp
      omega

/-- Key membership in the grouping loop's result. -/
theorem groupFold_go_mem {σ κ α : Type} [DecidableEq κ] (key : σ → Option κ)
    (pay : σ → α) :
    ∀ (l : List σ) (acc : List (κ × α × Nat)) (k : κ),
    k ∈ (l.foldl (fun acc c =>
        match key c with
        | some k => groupStep acc k (pay c)
        | none => acc) acc).map (fun e => e.1) ↔
      k ∈ acc.map (fun e => e.1) ∨ ∃ c ∈ l, key c = some k := by
  intro l
  induction l with
  | nil => intro acc k; simp
  | cons c t ih =>
    intro acc k
    rw [List.foldl_cons]
    cases hk : key c with
    | none =>
      simp only [hk]
      rw [ih acc k]
      constructor
      · rintro (hm | hex)
        · exact Or.inl hm
        · rcases hex with ⟨c2, hc2, hkc2⟩
          exact Or.inr ⟨c2, List.mem_cons_of_mem c hc2, hkc2⟩
      · rintro (hm | ⟨c2, hc2, hkc2⟩)
        · exact Or.inl hm
        · rcases List.mem_cons.mp hc2 with rfl | hc2t
          · rw [hk] at hkc2; cases hkc2
          · exact Or.inr ⟨c2, hc2t, hkc2⟩
    | some kc =>
      simp only [hk]
      rw [ih (groupStep acc kc (pay c)) k]
      rw [mem_keys_groupStep]
      constructor
      · rintro ((hm | rfl) | hex)
        · exact Or.inl hm
        · exact Or.inr ⟨c, List.mem_cons_self c t, hk⟩
        · rcases hex with ⟨c2, hc2, hkc2⟩
          exact Or.inr ⟨c2, List.mem_cons_of_mem c hc2, hkc2⟩
      · rintro (hm | ⟨c2, hc2, hkc2⟩)
        · exact Or.inl (Or.inl hm)
        · rcases List.mem_cons.mp hc2 with rfl | hc2t
          · rw [hk] at hkc2
            exact Or.inl (Or.inr (Option.some_inj.mp hkc2).symm)
          · exact Or.inr ⟨c2, hc2t, hkc2⟩

/-- Keys of a grouping are duplicate-free. -/
theorem groupFold_keys_nodup {σ κ α : Type} [DecidableEq κ] (key : σ → Option κ)
    (pay : σ → α) (l : List σ) :
    ((groupFold key pay l).map (fun e => e.1)).Nodup := by
  unfold groupFold
  exact groupFold_go_nodup key pay l [] (by simp)

/-- A grouping's count under key `k` is the number of events keyed `k`. -/
theorem groupFold_entryCount {σ κ α : Type} [DecidableEq κ] (key : σ → Option κ)
    (pay : σ → α) (l : List σ) (k : κ) :
    entryCount (groupFold key pay l) k = l.countP (fun c => decide (key c = some k)) := by
  unfold groupFold
  rw [groupFold_go_entryCount key pay l [] (by simp) k]
  simp [entryCount]

/-- A grouping's total count is the number of keyed events. -/
theorem groupFold_sumCounts {σ κ α : Type} [DecidableEq κ] (key : σ → Option κ)
    (pay : σ → α) (l : List σ) :
    sumCounts (groupFold key pay l) = l.countP (fun c => (key c).isSome) := by
  unfold groupFold
  rw [groupFold_go_sumCounts key pay l [] (by simp)]
  simp [sumCounts]

/-- A key appears in a grouping exactly when some event is keyed by it. -/
theorem groupFold_mem_keys {σ κ α : Type} [DecidableEq κ] (key : σ → Option κ)
    (pay : σ → α) (l : List σ) (k : κ) :
    k ∈ (groupFold key pay l).map (fun e => e.1) ↔ ∃ c ∈ l, key c = some k := by
  unfold groupFold
  rw [groupFold_go_mem key pay l [] k]
  simp

/-- The count carried by any entry of a grouping is the number of events with
that entry's key. -/
theorem groupFold_entry_clicks {σ κ α : Type} [DecidableEq κ] (key : σ → Option κ)
    (pay : σ → α) (l : List σ) {e : κ × α × Nat} (he : e ∈ groupFold key pay l) :
    e.2.2 = l.countP (fun c => decide (key c = some e.1)) := by
  rw [← groupFold_entryCount key pay l e.1]
  exact (entryCount_of_mem (groupFold key pay l) (groupFold_keys_nodup key pay l) he).symm

/-- Claim C4 (amended): `calculateGeographicDistribution` groups by exact
coordinate pair — the points carry pairwise-distinct coordinates, each point's
count is the number of events at exactly its coordinates, and every event
carrying (truthy) coordinates is represented — but each point's percentage is
its count's share of the **full input length** (events without coordinates
included), rounded to 2 decimal places. -/
theorem c4_geo_grouping (clicks : List ClickEvent) :
    ((calculateGeographicDistribution clicks).map (fun p => p.coordinates)).Nodup ∧
    (∀ p ∈ calculateGeographicDistribution clicks,
      p.clicks = clicks.countP
        (fun c => decide (coordKey c = some (p.coordinates.2, p.coordinates.1))) ∧
      p.percentage = pct p.clicks clicks.length) ∧
    (∀ c ∈ clicks, ∀ k : ℚ × ℚ, coordKey c = some k →
      (k.2, k.1) ∈ (calculateGeographicDistribution clicks).map (fun p => p.coordinates)) := by
  have hdef : calculateGeographicDistribution clicks =
      (groupFold coordKey (fun c => (jsOr c.country "Unknown", c.city)) clicks).map
        (fun e =>
          { coordinates := (e.1.2, e.1.1)
            country := e.2.1.1
            city := e.2.1.2
            clicks := e.2.2
            percentage := pct e.2.2 clicks.length }) := rfl
  have hcoords : (calculateGeographicDistribution clicks).map (fun p => p.coordinates) =
      ((groupFold coordKey (fun c => (jsOr c.country "Unknown", c.city)) clicks).map
        (fun e => e.1)).map (fun k => (k.2, k.1)) := by
    rw [hdef, List.map_map, List.map_map]
    rfl
  refine ⟨?_, ?_, ?_⟩
  · rw [hcoords]
    apply List.Nodup.map
    · intro p q hpq
      cases p; cases q
      simpa [Prod.ext_iff, and_comm] using hpq
    · exact groupFold_keys_nodup _ _ clicks
  · intro p hp
    rw [hdef] at hp
    rcases List.mem_map.mp hp with ⟨e, he, hep⟩
    have hclicks : p.clicks = e.2.2 := by rw [← hep]
    have hkey : (p.coordinates.2, p.coordinates.1) = e.1 := by rw [← hep]
    constructor
    · rw [hclicks, hkey, groupFold_entry_clicks coordKey _ clicks he]
    · rw [← hep]
  · intro c hc k hck
    rw [hcoords]
    exact List.mem_map.mpr ⟨k,
      (groupFold_mem_keys coordKey _ clicks k).mpr ⟨c, hc, hck⟩, rfl⟩

/-- Claim C4 (counterexample): one located and one unlocated event — the
located point's percentage is 50 (share of the full list), while the claim's
filtered-total reading demands 100. -/
theorem c4_percentage_counterexample :
    (calculateGeographicDistribution [geoA, geoNone]).map (fun p => p.percentage) =
      [50] ∧
    filteredTotal [geoA, geoNone] = 1 ∧
    pct 1 (filteredTotal [geoA, geoNone]) = 100 ∧
    ((50 : ℚ) ≠ 100) := by
  have hf : filteredTotal [geoA, geoNone] = 1 := by
    norm_num [filteredTotal, coordKey, geoA, geoNone, baseClick]
  refine ⟨?_, hf, ?_, by norm_num⟩
  · norm_num [calculateGeographicDistribution, groupFold, groupStep, coordKey,
      geoA, geoNone, baseClick, jsOr, pct, jsRound]
  · rw [hf]
    norm_num [pct, jsRound]

/-- The collapsed point of the C4 witness scenario. -/
def geoPointA : MapDataPoint :=
  { coordinates := (-0.1, 51.5)
    country := "Unknown"
    city := none
    clicks := 2
    percentage := 100 }

/-- Witness for C4: two events at `(51.5, -0.1)` collapse into the single
point with `clicks = 2`, whose fields satisfy the amended theorem. -/
theorem c4_witness :
    geoPointA ∈ calculateGeographicDistribution [geoA, geoA2] ∧
    (2 : Nat) = [geoA, geoA2].countP
      (fun c => decide (coordKey c = some ((51.5 : ℚ), (-0.1 : ℚ)))) ∧
    (100 : ℚ) = pct 2 [geoA, geoA2].length := by
  have hlist : calculateGeographicDistribution [geoA, geoA2] = [geoPointA] := by
    norm_num [calculateGeographicDistribution, groupFold, groupStep, coordKey,
      geoA, geoA2, baseClick, jsOr, pct, jsRound, geoPointA]
  have hmem : geoPointA ∈ calculateGeographicDistribution [geoA, geoA2] := by
    rw [hlist]
    exact List.mem_singleton.mpr rfl
  have h := (c4_geo_grouping [geoA, geoA2]).2.1 _ hmem
  exact ⟨hmem, h.1, h.2⟩

/-- `countDescB` is transitive. -/
theorem countDescB_trans {κ α : Type} : ∀ a b c : κ × α × Nat,
    countDescB a b → countDescB b c → countDescB a c := by
  intro a b c hab hbc
  simp only [countDescB, decide_eq_true_eq] at *
  omega

/-- `countDescB` is total. -/
theorem countDescB_total {κ α : Type} : ∀ a b : κ × α × Nat,
    countDescB a b || countDescB b a := by
  intro a b
  simp only [countDescB, Bool.or_eq_true, decide_eq_true_eq]
  omega

/-- Pointwise sum splitting over rationals. -/
theorem sum_map_add_rat {α : Type} (l : List α) (g h : α → ℚ) :
    (l.map (fun x => g x + h x)).sum = (l.map g).sum + (l.map h).sum := by
  induction l with
  | nil => simp
  | cons x t ih =>
    simp [ih]
    ring

/-- Pulling a constant factor out of a rational sum. -/
theorem sum_map_mul_const_rat {α : Type} (l : List α) (g : α → ℚ) (r : ℚ) :
    (l.map (fun x => g x * r)).sum = (l.map g).sum * r := by
  induction l with
  | nil => simp
  | cons x t ih =>
    simp [ih]
    ring

/-- Casting a sum of naturals into the rationals. -/
theorem sum_map_natCast {α : Type} (l : List α) (g : α → Nat) :
    (l.map (fun x => ((g x : Nat) : ℚ))).sum = (((l.map g).sum : Nat) : ℚ) := by
  induction l with
  | nil => simp
  | cons x t ih =>
    simp [ih]

/-- Summing a constant over a list. -/
theorem sum_map_const_rat {α : Type} (l : List α) (r : ℚ) :
    (l.map (fun _ => r)).sum = (l.length : ℚ) * r := by
  induction l with
  | nil => simp
  | cons x t ih =>
    simp [ih]
    ring

/-- Each rounded percentage overshoots its exact value by less than half a
hundredth. -/
theorem pct_le (n T : Nat) (hT : 0 < T) :
    pct n T ≤ (n : ℚ) * (100 / T) + 1 / 200 := by
  unfold pct
  rw [if_pos hT]
  unfold jsRound
  have hT0 : (0 : ℚ) < T := by exact_mod_cast hT
  have hf : ((⌊(n : ℚ) / (T : ℚ) * 100 * 100 + 1 / 2⌋ : ℤ) : ℚ) ≤
      (n : ℚ) / (T : ℚ) * 100 * 100 + 1 / 2 := Int.floor_le _
  calc ((⌊(n : ℚ) / (T : ℚ) * 100 * 100 + 1 / 2⌋ : ℤ) : ℚ) / 100
      ≤ ((n : ℚ) / (T : ℚ) * 100 * 100 + 1 / 2) / 100 := by gcongr
    _ = (n : ℚ) * (100 / T) + 1 / 200 := by
        field_simp
        ring

/-- The rounded percentages of a grouping whose counts total at most `T` sum
to at most `100 + 1/200` per entry. -/
theorem pct_sum_bound {κ α : Type} (L : List (κ × α × Nat)) (T : Nat) (hT : 0 < T)
    (hsum : (L.map (fun e => e.2.2)).sum ≤ T) :
    (L.map (fun e => pct e.2.2 T)).sum ≤ 100 + (L.length : ℚ) / 200 := by
  have hT0 : (0 : ℚ) < T := by exact_mod_cast hT
  have h1 : ∀ e ∈ L, pct e.2.2 T ≤ (e.2.2 : ℚ) * (100 / T) + 1 / 200 :=
    fun e _ => pct_le e.2.2 T hT
  calc (L.map (fun e => pct e.2.2 T)).sum
      ≤ (L.map (fun e => (e.2.2 : ℚ) * (100 / T) + 1 / 200)).sum := List.sum_le_sum h1
    _ = (L.map (fun e => (e.2.2 : ℚ) * (100 / T))).sum +
          (L.map (fun _ => (1 : ℚ) / 200)).sum := sum_map_add_rat L _ _
    _ = (((L.map (fun e => e.2.2)).sum : Nat) : ℚ) * (100 / T) +
          (L.length : ℚ) * (1 / 200) := by
        rw [sum_map_mul_const_rat, sum_map_natCast, sum_map_const_rat]
    _ ≤ (T : ℚ) * (100 / T) + (L.length : ℚ) * (1 / 200) := by
        have hc : (((L.map (fun e => e.2.2)).sum : Nat) : ℚ) ≤ (T : ℚ) := by
          exact_mod_cast hsum
        have hpos : (0 : ℚ) ≤ 100 / T := by positivity
        nlinarith
    _ = 100 + (L.length : ℚ) / 200 := by
        field_simp

/-- Claim C5 (amended): `calculateTopReferrers` returns at most `limit`
groups, sorted descending by count (ties keep first-encountered order by
stability of the sort), each entry's percentage being
`round(count/total·100, 2)` and its count the number of events with that
referrer key; the percentages can exceed 100% only by the accumulated
rounding, at most half a hundredth per returned entry. -/
theorem c5_top_referrers (clicks : List ClickEvent) (limit : Nat) :
    (calculateTopReferrers clicks limit).length ≤ limit ∧
    (calculateTopReferrers clicks limit).Pairwise (fun a b => b.clicks ≤ a.clicks) ∧
    (∀ e ∈ calculateTopReferrers clicks limit,
      e.percentage = pct e.clicks clicks.length ∧
      e.clicks = clicks.countP (fun c => decide (referrerKeyOf c = e.referrer))) ∧
    ((calculateTopReferrers clicks limit).map (fun e => e.percentage)).sum ≤
      100 + ((calculateTopReferrers clicks limit).length : ℚ) / 200 := by
  have hdef : calculateTopReferrers clicks limit =
      (((groupFold (fun c => some (referrerKeyOf c)) (fun _ => ()) clicks).mergeSort
          countDescB).take limit).map
        (fun e =>
          { referrer := e.1
            clicks := e.2.2
            percentage := pct e.2.2 clicks.length }) := rfl
  have hsorted : ((groupFold (fun c => some (referrerKeyOf c)) (fun _ => ())
      clicks).mergeSort countDescB).Pairwise (fun a b => countDescB a b) :=
    List.sorted_mergeSort countDescB_trans countDescB_total _
  have htake : (((groupFold (fun c => some (referrerKeyOf c)) (fun _ => ())
      clicks).mergeSort countDescB).take limit).Pairwise (fun a b => countDescB a b) :=
    List.Pairwise.sublist (List.take_sublist limit _) hsorted
  refine ⟨?_, ?_, ?_, ?_⟩
  · rw [hdef, List.length_map, List.length_take]
    exact min_le_left _ _
  · rw [hdef, List.pairwise_map]
    exact htake.imp (fun h => by simpa [countDescB] using h)
  · intro e he
    rw [hdef] at he
    rcases List.mem_map.mp he with ⟨pre, hpre, hpe⟩
    have hpre2 : pre ∈ groupFold (fun c => some (referrerKeyOf c)) (fun _ => ()) clicks :=
      List.mem_mergeSort.mp ((List.take_sublist limit _).subset hpre)
    constructor
    · rw [← hpe]
    · have hcnt := groupFold_entry_clicks (fun c => some (referrerKeyOf c))
        (fun _ => ()) clicks hpre2
      simp only [Option.some.injEq] at hcnt
      rw [← hpe]
      exact hcnt
  · rcases Nat.eq_zero_or_pos clicks.length with hT | hT
    · have hnil : clicks = [] := List.length_eq_zero.mp hT
      subst hnil
      rw [hdef]
      have h0 : groupFold (fun c => some (referrerKeyOf c)) (fun _ => ())
          ([] : List ClickEvent) = [] := rfl
      rw [h0, List.mergeSort_nil]
      norm_num
    · have hsum : ((((groupFold (fun c => some (referrerKeyOf c)) (fun _ => ())
          clicks).mergeSort countDescB).take limit).map (fun e => e.2.2)).sum ≤
          clicks.length := by
        calc ((((groupFold (fun c => some (referrerKeyOf c)) (fun _ => ())
              clicks).mergeSort countDescB).take limit).map (fun e => e.2.2)).sum
            ≤ (((groupFold (fun c => some (referrerKeyOf c)) (fun _ => ())
              clicks).mergeSort countDescB).map (fun e => e.2.2)).sum :=
              List.Sublist.sum_le_sum
                ((List.take_sublist limit _).map _) (fun a _ => Nat.zero_le a)
          _ = sumCounts (groupFold (fun c => some (referrerKeyOf c)) (fun _ => ())
              clicks) :=
              List.Perm.sum_eq
                ((List.mergeSort_perm _ countDescB).map _)
          _ = clicks.length := by
              rw [groupFold_sumCounts]
              simp
      have hb := pct_sum_bound (((groupFold (fun c => some (referrerKeyOf c))
        (fun _ => ()) clicks).mergeSort countDescB).take limit) clicks.length hT hsum
      rw [hdef, List.map_map, List.length_map]
      exact hb

/-- Claim C5 (counterexample): six events with six distinct referrers — each
group rounds `100/6` up to `16.67`, so the returned percentages sum to
`100.02 > 100`, refuting "sum to at most 100%". -/
theorem c5_sum_counterexample :
    ((calculateTopReferrers [refClick "r1", refClick "r2", refClick "r3", refClick "r4",
        refClick "r5", refClick "r6"] 10).map (fun e => e.percentage)).sum = 5001 / 50 ∧
    ¬((5001 : ℚ) / 50 ≤ 100) := by
  refine ⟨?_, by norm_num⟩
  have hmap : groupFold (fun c => some (referrerKeyOf c)) (fun _ => ())
      [refClick "r1", refClick "r2", refClick "r3", refClick "r4",
        refClick "r5", refClick "r6"] =
      [("r1", (), 1), ("r2", (), 1), ("r3", (), 1), ("r4", (), 1),
        ("r5", (), 1), ("r6", (), 1)] := by
    decide
  have hdef : calculateTopReferrers [refClick "r1", refClick "r2", refClick "r3",
      refClick "r4", refClick "r5", refClick "r6"] 10 =
      (((groupFold (fun c => some (referrerKeyOf c)) (fun _ => ())
        [refClick "r1", refClick "r2", refClick "r3", refClick "r4",
          refClick "r5", refClick "r6"]).mergeSort countDescB).take 10).map
        (fun e =>
          { referrer := e.1
            clicks := e.2.2
            percentage := pct e.2.2 6 }) := rfl
  rw [hdef, hmap, List.mergeSort_of_sorted (by decide)]
  norm_num [pct, jsRound]

/-- Witness for C5: the amended theorem applied to two events with referrers
`r1` and `r2`, at the entry for `r1`. -/
theorem c5_witness :
    ({ referrer := "r1", clicks := 1, percentage := pct 1 2 } : ReferrerStat) ∈
      calculateTopReferrers [refClick "r1", refClick "r2"] 10 ∧
    pct 1 2 = pct 1 ([refClick "r1", refClick "r2"].length) ∧
    (1 : Nat) = [refClick "r1", refClick "r2"].countP
      (fun c => decide (referrerKeyOf c = "r1")) := by
  have hmap : groupFold (fun c => some (referrerKeyOf c)) (fun _ => ())
      [refClick "r1", refClick "r2"] = [("r1", (), 1), ("r2", (), 1)] := by
    decide
  have hdef : calculateTopReferrers [refClick "r1", refClick "r2"] 10 =
      (((groupFold (fun c => some (referrerKeyOf c)) (fun _ => ())
        [refClick "r1", refClick "r2"]).mergeSort countDescB).take 10).map
        (fun e =>
          { referrer := e.1
            clicks := e.2.2
            percentage := pct e.2.2 2 }) := rfl
  have hmem : ({ referrer := "r1", clicks := 1, percentage := pct 1 2 } : ReferrerStat) ∈
      calculateTopReferrers [refClick "r1", refClick "r2"] 10 := by
    rw [hdef, hmap, List.mergeSort_of_sorted (by decide)]
    exact List.mem_cons_self _ _
  have h := (c5_top_referrers [refClick "r1", refClick "r2"] 10).2.2.1 _ hmem
  exact ⟨hmem, h.1, h.2⟩

end LinkTracker
